import Mathlib

/-!
Shallow embedding of the offline-first synchronization and persistence layer
of the field-inspection app (src/services/storageService.ts, src/services/db.ts
and the earlier revision of the storage service in src/unnamed/part_001).

Conventions of the embedding:
* `localStorage` values for the two collection keys are modelled by
  `StoredValue`: the key may be absent, hold a JSON array, hold a lone parsed
  object, or hold some other (non-array / corrupt) payload.
* JavaScript `Map` objects keyed by record id are modelled as association
  lists (`upsertFirst` is `Map.set`: replace the value in place at the first
  slot with that key, else append; JS map keys are unique by construction).
* `JSON.stringify` value comparison of two records of the same shape is
  modelled as structural equality of the record type.
* Remote calls emit `RemoteOp` values; their success or failure is a
  parameter of each operation (the backend is an external collaborator).
* `window.dispatchEvent` is modelled by the `Event` list each operation
  returns, in dispatch order.
-/

/-- Answer: one checklist response inside an inspection log.  `photoUrl` is
`none` (no photo), a `local::`-prefixed cache reference, or a remote URL. -/
structure Answer where
  pointId : String
  comments : String
  isOk : Bool
  photoUrl : Option String
deriving DecidableEq, Repr

/-- InspectionLog: one inspection record (src/types referenced by the storage
service). -/
structure InspectionLog where
  id : String
  siteName : String
  inspectorName : String
  date : String
  answers : List Answer
  pdfUrl : Option String
  synced : Bool
deriving DecidableEq, Repr

/-- Site: a named inspection location; the structural configuration is opaque
to the sync layer and folded into `config`. -/
structure Site where
  id : String
  name : String
  config : String
  synced : Bool
deriving DecidableEq, Repr

/-- Event: the two named browser events the storage service dispatches. -/
inductive Event where
  | sitesUpdated
  | inspectionsUpdated
deriving DecidableEq, Repr

/-- RemoteOp: one call made against the Supabase client (table select,
upsert-by-id, delete-by-id, or storage-bucket blob upload). -/
inductive RemoteOp where
  | select (table : String)
  | upsert (table : String) (id : String)
  | deleteById (table : String) (id : String)
  | putBlob (path : String)
deriving DecidableEq, Repr

/-- StoredValue: the state of one localStorage collection key.  `arr` is a
persisted JSON array, `lone` a persisted single object (legacy shape), `mal`
any other non-array or unparsable payload. -/
inductive StoredValue (α : Type) where
  | absent
  | arr (xs : List α)
  | lone (x : α)
  | mal
deriving DecidableEq, Repr

/-- collOf gives the list of records a stored value denotes under the sites
reader: only a JSON array holds records (getSites coerces anything else to
the empty list). -/
def collOf : StoredValue α → List α
  | .arr xs => xs
  | _ => []

/-- upsertFirst is JS `Map.set` / findIndex-replace-or-push: replace the
first entry with the same key in place, else append. -/
def upsertFirst (key : α → String) (v : α) : List α → List α
  | [] => [v]
  | x :: xs => if key x = key v then v :: xs else x :: upsertFirst key v xs

/-- lookupKey finds the first entry with the given key (JS `Map.get`, or
`find` on a list of records). -/
def lookupKey (key : α → String) (m : List α) (k : String) : Option α :=
  m.find? (fun x => key x = k)

/-- mkMap builds a JS `Map` from a record list (`new Map(xs.map(x => [x.id, x]))`):
later entries with a duplicate key replace the value at the first slot. -/
def mkMap (key : α → String) (xs : List α) : List α :=
  xs.foldl (fun m v => upsertFirst key v m) []

/-- updateFirst applies `f` to the first entry satisfying `p`
(`list[list.findIndex(p)] = f(...)` in the source). -/
def updateFirst (p : α → Bool) (f : α → α) : List α → List α
  | [] => []
  | x :: xs => if p x then f x :: xs else x :: updateFirst p f xs

/-- stripHeavyData removes the per-answer photo references from a log
(storageService.ts lines 11-16). -/
def stripHeavyData (log : InspectionLog) : InspectionLog :=
  { log with answers := log.answers.map (fun a => { a with photoUrl := none }) }

/-- getSites reads the sites collection (storageService.ts lines 20-39, same
body in src/unnamed/part_001 lines 13-38): an absent key is seeded with the
empty array; an array has any lingering demo record `site-1` filtered out and
written back; a non-array or corrupt payload degrades to the empty list with
no write.  Returns the new stored state and the returned list. -/
def getSites : StoredValue Site → StoredValue Site × List Site
  | .absent => (.arr [], [])
  | .arr xs =>
      if xs.any (fun s => s.id = "site-1") then
        let l := xs.filter (fun s => s.id ≠ "site-1")
        (.arr l, l)
      else (.arr xs, xs)
  | .lone x => (.lone x, [])
  | .mal => (.mal, [])

/-- getInspections reads the inspections collection (storageService.ts lines
93-103): absent key reads empty, a lone object with a truthy id is coerced to
a singleton, anything else degrades to empty; it never writes. -/
def getInspections : StoredValue InspectionLog → List InspectionLog
  | .absent => []
  | .arr xs => xs
  | .lone x => if x.id.isEmpty then [] else [x]
  | .mal => []

/-- SitesSyncResult bundles the outcome of a sites sync pass: the new stored
state, the dispatched events in order, and the remote calls made. -/
structure SitesSyncResult where
  store : StoredValue Site
  events : List Event
  remote : List RemoteOp
deriving DecidableEq, Repr

/-- mergeStep processes one remote row of downloadLatestSites
(src/unnamed/part_001 lines 53-64): if the row is absent locally or
value-unequal to the local record, the remote version is stored with
`synced := true` and the change flag is raised. -/
def mergeStep (acc : List Site × Bool) (r : Site) : List Site × Bool :=
  if lookupKey Site.id acc.1 r.id = some r then acc
  else (upsertFirst Site.id { r with synced := true } acc.1, true)

/-- mergeRows folds mergeStep over the fetched rows, starting from the local
site map and a lowered change flag. -/
def mergeRows (m : List Site) (rows : List Site) : List Site × Bool :=
  rows.foldl mergeStep (m, false)

/-- downloadLatestSites (src/unnamed/part_001 lines 41-76): gated on
configuration, client presence and connectivity; fetches the remote sites
(`fetch` is `none` when the select fails or returns null), merges them over
the local map, and only writes back and dispatches `sites-updated` when some
slot changed. -/
def downloadLatestSites (cfg client online : Bool) (fetch : Option (List Site))
    (s : StoredValue Site) : SitesSyncResult :=
  if !cfg || !client || !online then ⟨s, [], []⟩
  else
    match fetch with
    | none => ⟨s, [], [.select "sites"]⟩
    | some rows =>
      let p := getSites s
      let r := mergeRows (mkMap Site.id p.2) rows
      if r.2 then ⟨.arr r.1, [.sitesUpdated], [.select "sites"]⟩
      else ⟨p.1, [], [.select "sites"]⟩

/-- formatCloudSite is performInitialLoad's shaping of a remote site row:
`{ ...row.data, synced: true }` (storageService.ts line 269). -/
def formatCloudSite (s : Site) : Site := { s with synced := true }

/-- perfMergeSites is performInitialLoad's sites merge (storageService.ts
lines 267-273): remote rows are written into an empty map first and the
locally-pending (unsynced) records are written last, so they win. -/
def perfMergeSites (cloud : List Site) (locals : List Site) : List Site :=
  let pending := locals.filter (fun s => !s.synced)
  let formatted := cloud.map formatCloudSite
  (formatted ++ pending).foldl (fun m v => upsertFirst Site.id v m) []

/-- CloudLogRow is a row of the remote `inspections` table as
performInitialLoad consumes it: the log-level `pdf_url` column and the full
JSON payload. -/
structure CloudLogRow where
  pdf_url : Option String
  data : InspectionLog
deriving DecidableEq, Repr

/-- formatCloudLog is performInitialLoad's shaping of a remote log row
(storageService.ts lines 286-291): the payload is stripped of per-answer
photo references, the pdfUrl comes from the `pdf_url` column with the
payload's own pdfUrl as fallback, and the record is marked synced. -/
def formatCloudLog (row : CloudLogRow) : InspectionLog :=
  let d := stripHeavyData row.data
  { d with pdfUrl := row.pdf_url.orElse (fun _ => row.data.pdfUrl), synced := true }

/-- perfMergeLogs is performInitialLoad's inspections merge (storageService.ts
lines 282-297): formatted cloud rows first, pending (unsynced) local logs
last, kept in full. -/
def perfMergeLogs (rows : List CloudLogRow) (locals : List InspectionLog) : List InspectionLog :=
  let pending := locals.filter (fun l => !l.synced)
  let formatted := rows.map formatCloudLog
  (formatted ++ pending).foldl (fun m v => upsertFirst InspectionLog.id v m) []

/-- InitialLoadResult bundles the outcome of performInitialLoad over both
collections. -/
structure InitialLoadResult where
  sites : StoredValue Site
  inspections : StoredValue InspectionLog
  events : List Event
  remote : List RemoteOp
deriving DecidableEq, Repr

/-- performInitialLoad (storageService.ts lines 261-304): gated on
connectivity, configuration and client presence; selects both remote tables
(`none` models a null/failed select), merges each collection with
locally-pending records taking the last word, rewrites both keys, and then
dispatches both update events unconditionally. -/
def performInitialLoad (cfg client online : Bool)
    (cloudSites : Option (List Site)) (cloudLogs : Option (List CloudLogRow))
    (ss : StoredValue Site) (li : StoredValue InspectionLog) : InitialLoadResult :=
  if !online || !cfg || !client then ⟨ss, li, [], []⟩
  else
    let sites1 : StoredValue Site :=
      match cloudSites with
      | none => ss
      | some cloud => .arr (perfMergeSites cloud (getSites ss).2)
    let insp1 : StoredValue InspectionLog :=
      match cloudLogs with
      | none => li
      | some rows => .arr (perfMergeLogs rows (getInspections li))
    ⟨sites1, insp1, [.sitesUpdated, .inspectionsUpdated],
      [.select "sites", .select "inspections"]⟩

/-- cacheGet reads the IndexedDB photo store (db.ts getPhoto): an absent key
is an absent result, not an error. -/
def cacheGet (c : List (String × String)) (k : String) : Option String :=
  (c.find? (fun kv => kv.1 = k)).map (fun kv => kv.2)

/-- isLocalRef models `url.startsWith('local::')` — the 7-character local
marker — over the character list, so that it evaluates. -/
def isLocalRef (url : String) : Bool :=
  decide (url.toList.take 7 = "local::".toList)

/-- stripLocal removes the `local::` marker from a cache reference
(`url.replace('local::', '')` on a string known to start with the marker). -/
def stripLocal (url : String) : String := ⟨url.toList.drop 7⟩

/-- publicUrlOf resolves a storage path of the `reports` bucket to its public
URL; in the source this is a pure path convention (getPublicUrl). -/
def publicUrlOf (path : String) : String := "https://storage/reports/" ++ path

/-- photoPath is the deterministic blob path of an answer's photo
(storageService.ts line 185). -/
def photoPath (logId pointId : String) : String :=
  "photos/" ++ logId ++ "/" ++ pointId ++ ".jpg"

/-- uploadPhotoBlob (storageService.ts lines 106-126): gated on configuration
and client presence only (no connectivity check); `blobPut` says whether the
storage upload of a given path succeeds; every failure is caught and returned
as `none`. -/
def uploadPhotoBlob (cfg client : Bool) (blobPut : String → Bool)
    (path b64 : String) : Option String × List RemoteOp :=
  if !cfg || !client then (none, [])
  else if blobPut path then (some (publicUrlOf path), [.putBlob path])
  else (none, [.putBlob path])

/-- promoteOne is the per-answer body of the photo promotion step inside
uploadInspectionWithPDF (storageService.ts lines 180-195): a local reference
found in the cache is uploaded; on success the answer is rewritten to the
public URL and the cache key is scheduled for deletion; on cache miss or
upload failure the answer is returned unchanged.  Returns the new answer,
the deleted cache key if any, and the remote calls made. -/
def promoteOne (cfg client : Bool) (blobPut : String → Bool)
    (cache : List (String × String)) (logId : String) (ans : Answer) :
    Answer × Option String × List RemoteOp :=
  match ans.photoUrl with
  | some url =>
    if isLocalRef url then
      match cacheGet cache (stripLocal url) with
      | some b64 =>
        let path := photoPath logId ans.pointId
        let up := uploadPhotoBlob cfg client blobPut path b64
        match up.1 with
        | some pub => ({ ans with photoUrl := some pub }, some (stripLocal url), up.2)
        | none => (ans, none, up.2)
      | none => (ans, none, [])
    else (ans, none, [])
  | none => (ans, none, [])

/-- promoteLog runs promoteOne over all answers.  The source fans the
answers out with Promise.all: every per-answer task reads the cache as of
entry and deletes its own key, so the pass is modelled as a map over the
entry cache followed by the collected deletions. -/
def promoteLog (cfg client : Bool) (blobPut : String → Bool)
    (cache : List (String × String)) (log : InspectionLog) :
    InspectionLog × List (String × String) × List RemoteOp :=
  let results := log.answers.map (promoteOne cfg client blobPut cache log.id)
  let deleted := results.filterMap (fun r => r.2.1)
  ({ log with answers := results.map (fun r => r.1) },
    cache.filter (fun kv => !(deleted.contains kv.1)),
    results.foldr (fun r acc => r.2.2 ++ acc) [])

/-- sanitizeName is `siteName.replace(/\s+/g, '_')`: every maximal run of
whitespace becomes one underscore. -/
def sanitizeName (s : String) : String :=
  (s.toList.foldl (fun (acc : String × Bool) c =>
    if c.isWhitespace then (if acc.2 then acc else (acc.1.push '_', true))
    else (acc.1.push c, false)) ("", false)).1

/-- upsertedInspections is the collection saveInspection writes first: the
fresh read with the incoming log marked unsynced replacing its slot or
appended (storageService.ts lines 129-138). -/
def upsertedInspections (s : StoredValue InspectionLog) (log : InspectionLog) :
    List InspectionLog :=
  upsertFirst InspectionLog.id { log with synced := false } (getInspections s)

/-- stripSyncedLogs is saveInspection's quota fallback transformation
(storageService.ts line 146): already-synced records lose their per-answer
photo references, unsynced records are kept in full. -/
def stripSyncedLogs (l : List InspectionLog) : List InspectionLog :=
  l.map (fun i => if i.synced then stripHeavyData i else i)

/-- InspSaveResult is the outcome of saveInspection: the stored state, whether
the write threw out of the function, and the (empty) events and remote calls. -/
structure InspSaveResult where
  store : StoredValue InspectionLog
  threw : Bool
  events : List Event
  remote : List RemoteOp
deriving DecidableEq, Repr

/-- saveInspection (storageService.ts lines 128-154): marks the record
unsynced, upserts it into a fresh read of the collection and writes the
whole collection back; `fits` says whether a write is within the storage
quota.  On a quota failure it strips the already-synced records and retries
exactly once; a second failure propagates to the caller.  It dispatches no
event and makes no remote call. -/
def saveInspection (fits : List InspectionLog → Bool) (s : StoredValue InspectionLog)
    (log : InspectionLog) : InspSaveResult :=
  let up := upsertedInspections s log
  if fits up then ⟨.arr up, false, [], []⟩
  else
    let str := stripSyncedLogs up
    if fits str then ⟨.arr str, false, [], []⟩
    else ⟨s, true, [], []⟩

/-- saveSite (storageService.ts lines 51-79): marks the site unsynced,
upserts into a fresh read, persists, dispatches `sites-updated`, and — when
configured, online and the client exists — upserts remotely; on remote
success it re-reads the collection and marks the slot synced with a second
write and a second dispatch.  The local setItem try/catch only logs, so the
local write is modelled as succeeding (quota recovery exists only in
saveInspection). -/
def saveSite (cfg client online upsertOk : Bool) (s : StoredValue Site)
    (site : Site) : SitesSyncResult :=
  let p := getSites s
  let upserted := upsertFirst Site.id { site with synced := false } p.2
  let s1 : StoredValue Site := .arr upserted
  if cfg && online && client then
    if upsertOk then
      let q := getSites s1
      if q.2.any (fun x => x.id = site.id) then
        ⟨.arr (updateFirst (fun x => x.id = site.id) (fun x => { x with synced := true }) q.2),
          [.sitesUpdated, .sitesUpdated], [.upsert "sites" site.id]⟩
      else ⟨q.1, [.sitesUpdated], [.upsert "sites" site.id]⟩
    else ⟨s1, [.sitesUpdated], [.upsert "sites" site.id]⟩
  else ⟨s1, [.sitesUpdated], []⟩

/-- deleteSite (storageService.ts lines 81-89): filters the record out,
persists, dispatches, and deletes remotely only under the full guard. -/
def deleteSite (cfg client online : Bool) (s : StoredValue Site)
    (siteId : String) : SitesSyncResult :=
  let p := getSites s
  let s1 : StoredValue Site := .arr (p.2.filter (fun x => x.id ≠ siteId))
  if cfg && online && client then ⟨s1, [.sitesUpdated], [.deleteById "sites" siteId]⟩
  else ⟨s1, [.sitesUpdated], []⟩

/-- UploadResult is the outcome of uploadInspectionToSupabase. -/
structure UploadResult where
  store : StoredValue InspectionLog
  threw : Bool
  remote : List RemoteOp
deriving DecidableEq, Repr

/-- uploadInspectionToSupabase (storageService.ts lines 232-251): the source
checks only that the client object exists — it reads neither
checkSupabaseConfig nor navigator.onLine, so `cfg` and `online` are unused.
On upsert success it marks the first matching local slot synced. -/
def uploadInspectionToSupabase (cfg client online upsertOk : Bool)
    (s : StoredValue InspectionLog) (log : InspectionLog) : UploadResult :=
  if !client then ⟨s, false, []⟩
  else if !upsertOk then ⟨s, true, [.upsert "inspections" log.id]⟩
  else
    let insp := getInspections s
    if insp.any (fun i => i.id = log.id) then
      ⟨.arr (updateFirst (fun i => i.id = log.id) (fun i => { i with synced := true }) insp),
        false, [.upsert "inspections" log.id]⟩
    else ⟨s, false, [.upsert "inspections" log.id]⟩

/-- FinalizeResult is the outcome of the finalization flow over one log. -/
structure FinalizeResult where
  store : StoredValue InspectionLog
  cache : List (String × String)
  events : List Event
  remote : List RemoteOp
  threw : Bool
  publicUrl : Option String
deriving DecidableEq, Repr

/-- uploadInspectionWithPDF (storageService.ts lines 175-230): throws up
front when unconfigured or the client is missing — the source does not read
navigator.onLine, so `online` is unused.  Then: photo promotion, PDF blob
upload, public-URL resolution, remote table upsert, and only then the single
local write through saveInspection. -/
def uploadInspectionWithPDF (cfg client online : Bool) (blobPut : String → Bool)
    (pdfPutOk dbUpsertOk : Bool) (fits : List InspectionLog → Bool)
    (cache : List (String × String)) (s : StoredValue InspectionLog)
    (log : InspectionLog) : FinalizeResult :=
  if !cfg || !client then ⟨s, cache, [], [], true, none⟩
  else
    let pr := promoteLog cfg client blobPut cache log
    let pdfPath := sanitizeName pr.1.siteName ++ "_" ++ pr.1.id ++ ".pdf"
    let ops1 := pr.2.2 ++ [RemoteOp.putBlob pdfPath]
    if !pdfPutOk then ⟨s, pr.2.1, [], ops1, true, none⟩
    else
      let url := publicUrlOf pdfPath
      let updatedLog := { pr.1 with pdfUrl := some url, synced := true }
      let ops2 := ops1 ++ [RemoteOp.upsert "inspections" updatedLog.id]
      if !dbUpsertOk then ⟨s, pr.2.1, [], ops2, true, none⟩
      else
        let sv := saveInspection fits s updatedLog
        ⟨sv.store, pr.2.1, sv.events, ops2, sv.threw, if sv.threw then none else some url⟩

/-- finalizeFlow is the finalization entry as driven by the summary screen
(src/components part of db.ts blob, handleFinishAndUpload): a failed PDF
blob generation (`none`) throws before any upload or local write. -/
def finalizeFlow (pdfBlob : Option Unit) (cfg client online : Bool)
    (blobPut : String → Bool) (pdfPutOk dbUpsertOk : Bool)
    (fits : List InspectionLog → Bool) (cache : List (String × String))
    (s : StoredValue InspectionLog) (log : InspectionLog) : FinalizeResult :=
  match pdfBlob with
  | none => ⟨s, cache, [], [], true, none⟩
  | some _ =>
    uploadInspectionWithPDF cfg client online blobPut pdfPutOk dbUpsertOk fits cache s log

/-- SyncPendingResult is the outcome of syncPendingData over both
collections. -/
structure SyncPendingResult where
  sites : StoredValue Site
  inspections : StoredValue InspectionLog
  events : List Event
  remote : List RemoteOp
  syncedCount : Nat
deriving DecidableEq, Repr

/-- syncPendingData (src/unnamed/part_001 lines 208-261): gated up front on
connectivity, configuration and client presence; downloads sites first, then
uploads each pending inspection and each pending site, re-reading the
collection before every synced-flag write-back; per-item failures are caught
and skipped. -/
def syncPendingData (cfg client online : Bool) (fetchSites : Option (List Site))
    (upsertLogOk : String → Bool) (upsertSiteOk : String → Bool)
    (ss : StoredValue Site) (li : StoredValue InspectionLog) : SyncPendingResult :=
  if !online || !cfg || !client then ⟨ss, li, [], [], 0⟩
  else
    let d := downloadLatestSites cfg client online fetchSites ss
    let pend := (getInspections li).filter (fun i => !i.synced)
    let r1 := pend.foldl (fun (acc : StoredValue InspectionLog × Nat × List RemoteOp) log =>
      let ops := acc.2.2 ++ [RemoteOp.upsert "inspections" log.id]
      if upsertLogOk log.id then
        let cur := getInspections acc.1
        if cur.any (fun i => i.id = log.id) then
          (.arr (updateFirst (fun i => i.id = log.id) (fun i => { i with synced := true }) cur),
            acc.2.1 + 1, ops)
        else (acc.1, acc.2.1, ops)
      else (acc.1, acc.2.1, ops)) (li, 0, [])
    let p := getSites d.store
    let pendS := p.2.filter (fun x => !x.synced)
    let r2 := pendS.foldl (fun (acc : StoredValue Site × List Event × List RemoteOp) site =>
      let ops := acc.2.2 ++ [RemoteOp.upsert "sites" site.id]
      if upsertSiteOk site.id then
        let cur := getSites acc.1
        if cur.2.any (fun x => x.id = site.id) then
          (.arr (updateFirst (fun x => x.id = site.id) (fun x => { x with synced := true }) cur.2),
            acc.2.1 ++ [Event.sitesUpdated], ops)
        else (cur.1, acc.2.1, ops)
      else (acc.1, acc.2.1, ops)) (p.1, [], [])
    ⟨r2.1, r1.1, d.events ++ r2.2.1, d.remote ++ r1.2.2 ++ r2.2.2, r1.2.1⟩

/-- Concrete records used by the closed witnesses and counterexamples. -/
def ansLocal : Answer := ⟨"p1", "", true, some "local::abc"⟩

def ansMiss : Answer := ⟨"p2", "", true, some "local::zzz"⟩

def ansRemote : Answer := ⟨"p3", "r", false, some "https://storage/reports/photos/old.jpg"⟩

def ansPlain : Answer := ⟨"p4", "c", true, none⟩

def log0 : InspectionLog :=
  ⟨"log-1", "Main Site", "Ana", "2026-01-01T10:00:00Z", [ansLocal, ansMiss, ansPlain], none, false⟩

def logSyncedHeavy : InspectionLog :=
  ⟨"log-2", "Main Site", "Ana", "2026-01-02T10:00:00Z", [ansRemote],
    some "https://storage/reports/Main_Site_log-2.pdf", true⟩

def cache0 : List (String × String) := [("abc", "data:image/jpeg;base64,AAA")]

def siteLocalA : Site := ⟨"s1", "A", "c1", false⟩

def siteRemoteB : Site := ⟨"s1", "B", "c1", false⟩

def siteSyncedOnly : Site := ⟨"s3", "C", "c3", true⟩

def siteFresh : Site := ⟨"s9", "N", "c9", false⟩

def demoSite : Site := ⟨"site-1", "Demo", "c0", true⟩

def rowFresh : CloudLogRow :=
  ⟨some "https://storage/reports/Main_Site_log-9.pdf",
    ⟨"log-9", "Main Site", "Bo", "2026-01-03T10:00:00Z", [ansRemote], none, false⟩⟩


theorem lookupKey_nil (key : α → String) (k : String) :
    lookupKey key [] k = none := rfl

theorem lookupKey_cons (key : α → String) (x : α) (xs : List α) (k : String) :
    lookupKey key (x :: xs) k =
      if key x = k then some x else lookupKey key xs k := by
  simp only [lookupKey, List.find?]
  by_cases h : key x = k <;> simp [h]

theorem lookupKey_upsertFirst (key : α → String) (v : α) (m : List α) (k : String) :
    lookupKey key (upsertFirst key v m) k =
      if k = key v then some v else lookupKey key m k := by
  induction m with
  | nil =>
    simp only [upsertFirst, lookupKey_cons, lookupKey_nil]
    by_cases h : k = key v
    · rw [if_pos h.symm, if_pos h]
    · rw [if_neg (fun hh => h hh.symm), if_neg h]
  | cons x xs ih =>
    simp only [upsertFirst]
    by_cases hx : key x = key v
    · simp only [if_pos hx, lookupKey_cons]
      by_cases h : k = key v
      · rw [if_pos h.symm, if_pos h]
      · have h1 : ¬ key v = k := fun hh => h hh.symm
        have h2 : ¬ key x = k := fun hh => h1 (hx.symm.trans hh)
        rw [if_neg h1, if_neg h, if_neg h2]
    · simp only [if_neg hx, lookupKey_cons, ih]
      by_cases hxk : key x = k
      · have hkv : ¬ k = key v := fun hh => hx (hxk.trans hh)
        rw [if_pos hxk, if_neg hkv, if_pos hxk]
      · rw [if_neg hxk, if_neg hxk]

theorem mem_upsertFirst (key : α → String) (v : α) (m : List α) (y : α) :
    y ∈ upsertFirst key v m → y = v ∨ y ∈ m := by
  induction m with
  | nil => intro h; simp [upsertFirst] at h; exact Or.inl h
  | cons x xs ih =>
    simp only [upsertFirst]
    by_cases hx : key x = key v
    · rw [if_pos hx]
      intro h
      rcases List.mem_cons.mp h with h | h
      · exact Or.inl h
      · exact Or.inr (List.mem_cons.mpr (Or.inr h))
    · rw [if_neg hx]
      intro h
      rcases List.mem_cons.mp h with h | h
      · exact Or.inr (List.mem_cons.mpr (Or.inl h))
      · rcases ih h with h' | h'
        · exact Or.inl h'
        · exact Or.inr (List.mem_cons.mpr (Or.inr h'))

/-- lookupKey on a list whose keys are distinct returns the member itself. -/
theorem lookupKey_eq_of_nodup (key : α → String) (xs : List α) (l : α)
    (hnd : (xs.map key).Nodup) (hmem : l ∈ xs) :
    lookupKey key xs (key l) = some l := by
  induction xs with
  | nil => cases hmem
  | cons x rest ih =>
    rcases List.mem_cons.mp hmem with rfl | hmem'
    · simp [lookupKey_cons]
    · have hx : key x ≠ key l := by
        intro hcontra
        have : key l ∈ rest.map key := List.mem_map_of_mem key hmem'
        rw [List.map_cons] at hnd
        exact (List.nodup_cons.mp hnd).1 (hcontra ▸ this)
      rw [lookupKey_cons, if_neg hx]
      exact ih (List.nodup_cons.mp (by rwa [List.map_cons] at hnd)).2 hmem'

/-- collOf of the stored state getSites leaves behind equals the list it
returns. -/
theorem getSites_coll (s : StoredValue Site) :
    collOf (getSites s).1 = (getSites s).2 := by
  cases s with
  | absent => rfl
  | arr xs =>
    simp only [getSites]
    by_cases h : xs.any (fun s => s.id = "site-1") <;> simp [h, collOf]
  | lone x => rfl
  | mal => rfl

theorem lookupKey_mergeStep (acc : List Site × Bool) (r : Site) (k : String)
    (hk : r.id ≠ k) :
    lookupKey Site.id (mergeStep acc r).1 k = lookupKey Site.id acc.1 k := by
  simp only [mergeStep]
  by_cases hc : lookupKey Site.id acc.1 r.id = some r
  · rw [if_pos hc]
  · rw [if_neg hc]
    show lookupKey Site.id (upsertFirst Site.id { r with synced := true } acc.1) k = _
    rw [lookupKey_upsertFirst]
    exact if_neg (fun hh => hk hh.symm)

/-- Rows whose ids avoid `k` leave the slot at `k` untouched through the
whole merge fold. -/
theorem lookupKey_foldl_mergeStep (rows : List Site) (acc : List Site × Bool)
    (k : String) (h : ∀ r ∈ rows, r.id ≠ k) :
    lookupKey Site.id (rows.foldl mergeStep acc).1 k = lookupKey Site.id acc.1 k := by
  induction rows generalizing acc with
  | nil => rfl
  | cons r rest ih =>
    rw [List.foldl_cons]
    rw [ih (mergeStep acc r) (fun x hx => h x (List.mem_cons.mpr (Or.inr hx)))]
    exact lookupKey_mergeStep acc r k (h r (List.mem_cons.mpr (Or.inl rfl)))

theorem mergeStep_lookup_self (acc : List Site × Bool) (r : Site) :
    lookupKey Site.id (mergeStep acc r).1 r.id =
      if lookupKey Site.id acc.1 r.id = some r then some r
      else some { r with synced := true } := by
  simp only [mergeStep]
  by_cases hc : lookupKey Site.id acc.1 r.id = some r
  · rw [if_pos hc, if_pos hc, hc]
  · rw [if_neg hc, if_neg hc]
    show lookupKey Site.id (upsertFirst Site.id { r with synced := true } acc.1) r.id = _
    rw [lookupKey_upsertFirst]
    exact if_pos rfl

/-- Value of the merged map at the id of any remote row: the row as-is when
it was already value-equal to the local slot, otherwise the row with
`synced := true` (remote wins, ids fetched without duplicates). -/
theorem lookupKey_mergeRows (rows : List Site) (acc : List Site × Bool) (r : Site)
    (hnd : (rows.map Site.id).Nodup) (hmem : r ∈ rows) :
    lookupKey Site.id (rows.foldl mergeStep acc).1 r.id =
      if lookupKey Site.id acc.1 r.id = some r then some r
      else some { r with synced := true } := by
  induction rows generalizing acc with
  | nil => cases hmem
  | cons r0 rest ih =>
    rw [List.map_cons, List.nodup_cons] at hnd
    rw [List.foldl_cons]
    rcases List.mem_cons.mp hmem with rfl | hmem'
    · have hrest : ∀ x ∈ rest, x.id ≠ r.id := by
        intro x hx hcontra
        exact hnd.1 (hcontra ▸ List.mem_map_of_mem Site.id hx)
      rw [lookupKey_foldl_mergeStep rest (mergeStep acc r) r.id hrest]
      exact mergeStep_lookup_self acc r
    · have hne : r0.id ≠ r.id := by
        intro hcontra
        exact hnd.1 (hcontra ▸ List.mem_map_of_mem Site.id hmem')
      rw [ih (mergeStep acc r0) hnd.2 hmem',
        lookupKey_mergeStep acc r0 r.id hne]

/-- Change flag stays lowered through the fold when every remote row is
value-equal to its local slot. -/
theorem mergeRows_no_change (rows : List Site) (m : List Site)
    (h : ∀ r ∈ rows, lookupKey Site.id m r.id = some r) :
    rows.foldl mergeStep (m, false) = (m, false) := by
  induction rows with
  | nil => rfl
  | cons r rest ih =>
    rw [List.foldl_cons]
    have hr : mergeStep (m, false) r = (m, false) := by
      simp only [mergeStep]
      rw [if_pos (h r (List.mem_cons.mpr (Or.inl rfl)))]
    rw [hr]
    exact ih (fun x hx => h x (List.mem_cons.mpr (Or.inr hx)))

/-- Looking up a key after folding `Map.set` over a list: the last entry with
that key wins, falling back to the initial map. -/
theorem lookupKey_foldl_upsertFirst (key : α → String) (xs : List α) (m0 : List α)
    (k : String) :
    lookupKey key (xs.foldl (fun m v => upsertFirst key v m) m0) k =
      (xs.reverse.find? (fun x => key x = k)).or (lookupKey key m0 k) := by
  induction xs generalizing m0 with
  | nil => simp
  | cons x xs ih =>
    rw [List.foldl_cons, ih, List.reverse_cons, List.find?_append, Option.or_assoc]
    congr 1
    rw [lookupKey_upsertFirst]
    by_cases h : key x = k
    · rw [if_pos (h.symm)]
      simp [List.find?, h]
    · rw [if_neg (fun hh => h hh.symm)]
      simp [List.find?, h]

/-- Specialisation of the last-write-wins lemma to a fold that starts from
the empty map, as both performInitialLoad merges do. -/
theorem lookupKey_mkFold (key : α → String) (xs : List α) (k : String) :
    lookupKey key (xs.foldl (fun m v => upsertFirst key v m) []) k =
      xs.reverse.find? (fun x => key x = k) := by
  rw [lookupKey_foldl_upsertFirst]
  simp [lookupKey_nil]

/-- Reversal keeps a nodup-keyed member the unique hit of find?. -/
theorem find?_reverse_of_nodup (key : α → String) (xs : List α) (l : α)
    (hnd : (xs.map key).Nodup) (hmem : l ∈ xs) :
    xs.reverse.find? (fun x => key x = key l) = some l := by
  have hnd' : (xs.reverse.map key).Nodup := by
    rw [List.map_reverse]
    exact List.nodup_reverse.mpr hnd
  exact lookupKey_eq_of_nodup key xs.reverse l hnd' (List.mem_reverse.mpr hmem)

theorem mem_foldl_upsertFirst (key : α → String) (xs m0 : List α) (y : α) :
    y ∈ xs.foldl (fun m v => upsertFirst key v m) m0 → y ∈ m0 ∨ y ∈ xs := by
  induction xs generalizing m0 with
  | nil => intro h; exact Or.inl h
  | cons x xs ih =>
    rw [List.foldl_cons]
    intro h
    rcases ih (upsertFirst key x m0) h with h' | h'
    · rcases mem_upsertFirst key x m0 y h' with rfl | h''
      · exact Or.inr (List.mem_cons.mpr (Or.inl rfl))
      · exact Or.inl h''
    · exact Or.inr (List.mem_cons.mpr (Or.inr h'))

/-- Locally-pending records are written last into performInitialLoad's sites
map, so the merged slot carries the pending record unchanged. -/
theorem lookupKey_perfMergeSites_pending (cloud locals : List Site) (l : Site)
    (hnd : (locals.map Site.id).Nodup) (hmem : l ∈ locals) (hsync : l.synced = false) :
    lookupKey Site.id (perfMergeSites cloud locals) l.id = some l := by
  have hpend : l ∈ locals.filter (fun s => !s.synced) :=
    List.mem_filter.mpr ⟨hmem, by rw [hsync]; rfl⟩
  have hndp : ((locals.filter (fun s => !s.synced)).map Site.id).Nodup :=
    hnd.sublist ((locals.filter_sublist (p := fun s => !s.synced)).map Site.id)
  rw [perfMergeSites, lookupKey_mkFold, List.reverse_append, List.find?_append,
    find?_reverse_of_nodup Site.id _ l hndp hpend]
  rfl

/-- A cloud site row whose id carries no locally-pending record ends up in
performInitialLoad's merged map as the remote payload marked synced. -/
theorem lookupKey_perfMergeSites_cloud (cloud locals : List Site) (r : Site)
    (hnd : (cloud.map Site.id).Nodup) (hmem : r ∈ cloud)
    (hnp : ∀ l ∈ locals, l.id = r.id → l.synced = true) :
    lookupKey Site.id (perfMergeSites cloud locals) r.id = some { r with synced := true } := by
  have hmap : (cloud.map formatCloudSite).map Site.id = cloud.map Site.id := by
    rw [List.map_map]; rfl
  have hnone : ((locals.filter (fun s => !s.synced)).reverse.find?
      (fun x => Site.id x = r.id)) = none := by
    rw [List.find?_eq_none]
    intro x hx
    have hx' := List.mem_filter.mp (List.mem_reverse.mp hx)
    intro hcontra
    have := hnp x hx'.1 (by exact of_decide_eq_true hcontra)
    rw [this] at hx'
    exact absurd hx'.2 (by decide)
  rw [perfMergeSites, lookupKey_mkFold, List.reverse_append, List.find?_append, hnone]
  have := find?_reverse_of_nodup Site.id (cloud.map formatCloudSite)
    (formatCloudSite r) (by rw [hmap]; exact hnd) (List.mem_map_of_mem _ hmem)
  exact this

/-- Locally-pending logs are written last into performInitialLoad's
inspections map, so the merged slot carries the pending log in full. -/
theorem lookupKey_perfMergeLogs_pending (rows : List CloudLogRow)
    (locals : List InspectionLog) (l : InspectionLog)
    (hnd : (locals.map InspectionLog.id).Nodup) (hmem : l ∈ locals)
    (hsync : l.synced = false) :
    lookupKey InspectionLog.id (perfMergeLogs rows locals) l.id = some l := by
  have hpend : l ∈ locals.filter (fun x => !x.synced) :=
    List.mem_filter.mpr ⟨hmem, by rw [hsync]; rfl⟩
  have hndp : ((locals.filter (fun x => !x.synced)).map InspectionLog.id).Nodup :=
    hnd.sublist ((locals.filter_sublist (p := fun x => !x.synced)).map InspectionLog.id)
  rw [perfMergeLogs, lookupKey_mkFold, List.reverse_append, List.find?_append,
    find?_reverse_of_nodup InspectionLog.id _ l hndp hpend]
  rfl

/-- A cloud log row whose id carries no locally-pending log ends up in
performInitialLoad's merged map as the formatted (photo-stripped, synced)
payload. -/
theorem lookupKey_perfMergeLogs_cloud (rows : List CloudLogRow)
    (locals : List InspectionLog) (row : CloudLogRow)
    (hnd : ((rows.map formatCloudLog).map InspectionLog.id).Nodup) (hmem : row ∈ rows)
    (hnp : ∀ l ∈ locals, l.id = row.data.id → l.synced = true) :
    lookupKey InspectionLog.id (perfMergeLogs rows locals) row.data.id =
      some (formatCloudLog row) := by
  have hnone : ((locals.filter (fun x => !x.synced)).reverse.find?
      (fun x => InspectionLog.id x = row.data.id)) = none := by
    rw [List.find?_eq_none]
    intro x hx
    have hx' := List.mem_filter.mp (List.mem_reverse.mp hx)
    intro hcontra
    have := hnp x hx'.1 (by exact of_decide_eq_true hcontra)
    rw [this] at hx'
    exact absurd hx'.2 (by decide)
  rw [perfMergeLogs, lookupKey_mkFold, List.reverse_append, List.find?_append, hnone]
  have := find?_reverse_of_nodup InspectionLog.id (rows.map formatCloudLog)
    (formatCloudLog row) hnd (List.mem_map_of_mem _ hmem)
  exact this

/-- Every record of the performInitialLoad inspections merge comes from the
formatted cloud rows or from the pending local logs. -/
theorem mem_perfMergeLogs (rows : List CloudLogRow) (locals : List InspectionLog)
    (l : InspectionLog) (hmem : l ∈ perfMergeLogs rows locals) :
    l ∈ rows.map formatCloudLog ∨ l ∈ locals.filter (fun x => !x.synced) := by
  rcases mem_foldl_upsertFirst InspectionLog.id _ [] l hmem with h | h
  · cases h
  · exact List.mem_append.mp h

/-- C10: getSites, although a read, mutates the persisted sites collection:
for every stored state, after any call no record with id "site-1" remains in
the persisted collection (under the sites reader's collection semantics) and
none appears in the returned list; an absent key is seeded with the empty
collection. -/
theorem c10_getSites_scrubs_demo_site (s : StoredValue Site) :
    (∀ x ∈ (getSites s).2, x.id ≠ "site-1") ∧
    (∀ x ∈ collOf (getSites s).1, x.id ≠ "site-1") ∧
    getSites (.absent : StoredValue Site) = (.arr [], []) := by
  have h2 : ∀ x ∈ (getSites s).2, x.id ≠ "site-1" := by
    cases s with
    | absent => intro x hx; cases hx
    | arr xs =>
      by_cases h : xs.any (fun t => t.id = "site-1")
      · intro x hx
        simp only [getSites, if_pos h] at hx
        exact of_decide_eq_true (List.mem_filter.mp hx).2
      · intro x hx
        simp only [getSites, if_neg h] at hx
        intro hcontra
        exact h (List.any_eq_true.mpr ⟨x, hx, decide_eq_true hcontra⟩)
    | lone x => intro y hy; simp [getSites] at hy
    | mal => intro y hy; simp [getSites] at hy
  refine ⟨h2, ?_, rfl⟩
  rw [getSites_coll]
  exact h2

/-- Witness for C10 at a stored array that still carries the demo record. -/
theorem c10_witness :
    getSites (.arr [demoSite, siteFresh]) = (.arr [siteFresh], [siteFresh]) ∧
    siteFresh.id ≠ "site-1" :=
  ⟨by decide,
    (c10_getSites_scrubs_demo_site (.arr [demoSite, siteFresh])).1 siteFresh (by decide)⟩

/-- Counterexample to C6 as stated: a successful saveInspection mutates the
persisted collection (absent key becomes a one-record array) yet dispatches
no notification at all — in particular no inspections-updated. -/
theorem c6_counterexample :
    (saveInspection (fun _ => true) .absent log0).store =
      .arr [{ log0 with synced := false }] ∧
    (saveInspection (fun _ => true) .absent log0).events = [] := by
  constructor
  · rfl
  · rfl

/-- C6 amended: saveSite marks the record unsynced before persisting the
whole collection and dispatches sites-updated right after the write (its
events always begin with sites-updated); saveInspection likewise marks the
record unsynced and persists the whole collection, but dispatches no
notification — inspections-updated is never raised by saveInspection. -/
theorem c6_amended_upsert_semantics
    (cfg client online upsertOk : Bool) (s : StoredValue Site) (site : Site)
    (fits : List InspectionLog → Bool) (li : StoredValue InspectionLog)
    (log : InspectionLog) :
    ((saveSite cfg client online upsertOk s site).events.head? = some .sitesUpdated) ∧
    ((saveSite cfg client false upsertOk s site).store =
      .arr (upsertFirst Site.id { site with synced := false } (getSites s).2)) ∧
    (lookupKey Site.id (collOf (saveSite cfg client false upsertOk s site).store) site.id =
      some { site with synced := false }) ∧
    ((saveInspection fits li log).events = []) ∧
    (fits (upsertedInspections li log) = true →
      lookupKey InspectionLog.id (collOf (saveInspection fits li log).store) log.id =
        some { log with synced := false }) := by
  have hoff : (cfg && false && client) = false := by
    rw [Bool.and_false, Bool.false_and]
  refine ⟨?_, ?_, ?_, ?_, ?_⟩
  · simp only [saveSite]
    split
    · split
      · split
        · rfl
        · rfl
      · rfl
    · rfl
  · simp only [saveSite, hoff]
    rfl
  · simp only [saveSite, hoff]
    show lookupKey Site.id
      (collOf (StoredValue.arr (upsertFirst Site.id { site with synced := false } (getSites s).2)))
      site.id = _
    rw [collOf, lookupKey_upsertFirst]
    exact if_pos rfl
  · simp only [saveInspection]
    split
    · rfl
    · split
      · rfl
      · rfl
  · intro hfit
    simp only [saveInspection, hfit]
    show lookupKey InspectionLog.id (collOf (StoredValue.arr (upsertedInspections li log)))
      log.id = _
    rw [collOf, upsertedInspections, lookupKey_upsertFirst]
    exact if_pos rfl

/-- Witness for C6 amended at concrete inputs, discharging the quota
hypothesis. -/
theorem c6_witness :
    (saveSite true true true true (.arr [siteFresh]) siteFresh).events.head? =
      some .sitesUpdated ∧
    lookupKey InspectionLog.id
      (collOf (saveInspection (fun _ => true) (.arr [logSyncedHeavy]) log0).store) log0.id =
      some { log0 with synced := false } :=
  ⟨(c6_amended_upsert_semantics true true true true (.arr [siteFresh]) siteFresh
      (fun _ => true) (.arr [logSyncedHeavy]) log0).1,
    (c6_amended_upsert_semantics true true true true (.arr [siteFresh]) siteFresh
      (fun _ => true) (.arr [logSyncedHeavy]) log0).2.2.2.2 rfl⟩

/-- C7: when the first inspections write exceeds the quota, saveInspection
strips the per-answer photo references from exactly the already-synced
records (unsynced records are kept intact), retries the write exactly once
(a second failure propagates with the store untouched), and never removes or
reorders a record. -/
theorem c7_quota_strips_synced_only (fits : List InspectionLog → Bool)
    (s : StoredValue InspectionLog) (log : InspectionLog)
    (hq : fits (upsertedInspections s log) = false) :
    ((saveInspection fits s log).store =
      if fits (stripSyncedLogs (upsertedInspections s log))
      then .arr (stripSyncedLogs (upsertedInspections s log)) else s) ∧
    ((saveInspection fits s log).threw =
      !(fits (stripSyncedLogs (upsertedInspections s log)))) ∧
    ((stripSyncedLogs (upsertedInspections s log)).map InspectionLog.id =
      (upsertedInspections s log).map InspectionLog.id) ∧
    ((stripSyncedLogs (upsertedInspections s log)).length =
      (upsertedInspections s log).length) ∧
    (∀ i (hi : i < (upsertedInspections s log).length)
        (hi' : i < (stripSyncedLogs (upsertedInspections s log)).length),
      (((upsertedInspections s log).get ⟨i, hi⟩).synced = false →
        (stripSyncedLogs (upsertedInspections s log)).get ⟨i, hi'⟩ =
          (upsertedInspections s log).get ⟨i, hi⟩) ∧
      (((upsertedInspections s log).get ⟨i, hi⟩).synced = true →
        (stripSyncedLogs (upsertedInspections s log)).get ⟨i, hi'⟩ =
          stripHeavyData ((upsertedInspections s log).get ⟨i, hi⟩))) := by
  have hmap : ∀ i (hi : i < (upsertedInspections s log).length)
      (hi' : i < (stripSyncedLogs (upsertedInspections s log)).length),
      (stripSyncedLogs (upsertedInspections s log)).get ⟨i, hi'⟩ =
        (fun l => if l.synced then stripHeavyData l else l)
          ((upsertedInspections s log).get ⟨i, hi⟩) := by
    intro i hi hi'
    simp [stripSyncedLogs, List.get_eq_getElem, List.getElem_map]
  refine ⟨?_, ?_, ?_, ?_, ?_⟩
  · simp only [saveInspection, hq]
    by_cases hstr : fits (stripSyncedLogs (upsertedInspections s log)) <;>
      simp [hstr]
  · simp only [saveInspection, hq]
    by_cases hstr : fits (stripSyncedLogs (upsertedInspections s log)) <;>
      simp [hstr]
  · simp only [stripSyncedLogs, List.map_map]
    congr 1
    funext l
    by_cases h : l.synced <;> simp [h, stripHeavyData, Function.comp]
  · simp [stripSyncedLogs]
  · intro i hi hi'
    constructor
    · intro h
      rw [hmap i hi hi']
      show (if ((upsertedInspections s log).get ⟨i, hi⟩).synced = true
          then stripHeavyData ((upsertedInspections s log).get ⟨i, hi⟩)
          else (upsertedInspections s log).get ⟨i, hi⟩) = _
      rw [if_neg (by rw [h]; exact Bool.false_ne_true)]
    · intro h
      rw [hmap i hi hi']
      show (if ((upsertedInspections s log).get ⟨i, hi⟩).synced = true
          then stripHeavyData ((upsertedInspections s log).get ⟨i, hi⟩)
          else (upsertedInspections s log).get ⟨i, hi⟩) = _
      rw [if_pos h]

/-- Witness for C7: a synced heavy record plus a fresh light record, a quota
predicate that rejects the first write and accepts the stripped retry. -/
theorem c7_witness :
    (fun l => l.all (fun i => i.answers.all (fun a => a.photoUrl.isNone)))
        (upsertedInspections (.arr [logSyncedHeavy]) { log0 with answers := [ansPlain] }) =
      false ∧
    (saveInspection (fun l => l.all (fun i => i.answers.all (fun a => a.photoUrl.isNone)))
        (.arr [logSyncedHeavy]) { log0 with answers := [ansPlain] }).store =
      .arr (stripSyncedLogs (upsertedInspections (.arr [logSyncedHeavy])
        { log0 with answers := [ansPlain] })) :=
  ⟨by decide, by
    have h := c7_quota_strips_synced_only
      (fun l => l.all (fun i => i.answers.all (fun a => a.photoUrl.isNone)))
      (.arr [logSyncedHeavy]) { log0 with answers := [ansPlain] } (by decide)
    rw [h.1, if_pos (by decide)]⟩

/-- C3: if the finalization flow fails after entry and before its final
local write — PDF blob generation failure, PDF upload failure, or remote
table upsert failure — the locally persisted inspection collection is exactly
what it was at flow entry, and the failure is surfaced as a throw. -/
theorem c3_finalization_preserves_local_on_failure (pdfBlob : Option Unit)
    (cfg client online : Bool) (blobPut : String → Bool) (pdfPutOk dbUpsertOk : Bool)
    (fits : List InspectionLog → Bool) (cache : List (String × String))
    (s : StoredValue InspectionLog) (log : InspectionLog)
    (hfail : pdfBlob = none ∨ pdfPutOk = false ∨ dbUpsertOk = false) :
    (finalizeFlow pdfBlob cfg client online blobPut pdfPutOk dbUpsertOk fits
        cache s log).store = s ∧
    (finalizeFlow pdfBlob cfg client online blobPut pdfPutOk dbUpsertOk fits
        cache s log).threw = true := by
  rcases hfail with h | h | h
  · subst h
    exact ⟨rfl, rfl⟩
  · subst h
    cases pdfBlob with
    | none => exact ⟨rfl, rfl⟩
    | some u =>
      simp only [finalizeFlow, uploadInspectionWithPDF]
      by_cases hg : (!cfg || !client) = true <;> simp [hg]
  · subst h
    cases pdfBlob with
    | none => exact ⟨rfl, rfl⟩
    | some u =>
      simp only [finalizeFlow, uploadInspectionWithPDF]
      by_cases hg : (!cfg || !client) = true
      · simp [hg]
      · by_cases hp : pdfPutOk <;> simp [hg, hp]

/-- Witness for C3: a concrete finalization whose PDF upload fails leaves the
stored collection untouched. -/
theorem c3_witness :
    (finalizeFlow (some ()) true true true (fun _ => true) false true (fun _ => true)
        cache0 (.arr [log0]) log0).store = .arr [log0] ∧
    (finalizeFlow (some ()) true true true (fun _ => true) false true (fun _ => true)
        cache0 (.arr [log0]) log0).threw = true :=
  c3_finalization_preserves_local_on_failure (some ()) true true true (fun _ => true)
    false true (fun _ => true) cache0 (.arr [log0]) log0 (Or.inr (Or.inl rfl))

theorem cacheGet_filter_of_mem (c : List (String × String)) (del : List String)
    (k : String) (h : k ∈ del) :
    cacheGet (c.filter (fun kv => !(del.contains kv.1))) k = none := by
  have hfind : (c.filter (fun kv => !(del.contains kv.1))).find? (fun kv => kv.1 = k) =
      none := by
    rw [List.find?_eq_none]
    intro kv hkv hcontra
    have h2 := (List.mem_filter.mp hkv).2
    have hk : kv.1 = k := of_decide_eq_true hcontra
    rw [hk] at h2
    simp at h2
    exact h2 h
  show ((c.filter (fun kv => !(del.contains kv.1))).find? (fun kv => kv.1 = k)).map
    (fun kv => kv.2) = none
  rw [hfind]
  rfl

theorem uploadPhotoBlob_fst_none (cfg client : Bool) (blobPut : String → Bool)
    (path b64 : String) (h : (cfg && client && blobPut path) = false) :
    (uploadPhotoBlob cfg client blobPut path b64).1 = none := by
  by_cases h1 : cfg = true
  · by_cases h2 : client = true
    · have h3 : blobPut path = false := by
        rw [h1, h2] at h
        simpa using h
      simp [uploadPhotoBlob, h1, h2, h3]
    · have h2' : client = false := by
        cases client
        · rfl
        · exact absurd rfl h2
      simp [uploadPhotoBlob, h2']
  · have h1' : cfg = false := by
      cases cfg
      · rfl
      · exact absurd rfl h1
    simp [uploadPhotoBlob, h1']

theorem promoteOne_success (cfg client : Bool) (blobPut : String → Bool)
    (cache : List (String × String)) (logId : String) (ans : Answer) (url : String)
    (hurl : ans.photoUrl = some url) (hloc : isLocalRef url = true)
    (hcache : cacheGet cache (stripLocal url) ≠ none)
    (hcfg : cfg = true) (hcl : client = true)
    (hput : blobPut (photoPath logId ans.pointId) = true) :
    promoteOne cfg client blobPut cache logId ans =
      ({ ans with photoUrl := some (publicUrlOf (photoPath logId ans.pointId)) },
        some (stripLocal url), [.putBlob (photoPath logId ans.pointId)]) := by
  subst hcfg hcl
  obtain ⟨b64, hb⟩ : ∃ b, cacheGet cache (stripLocal url) = some b := by
    cases hcg : cacheGet cache (stripLocal url)
    · exact absurd hcg hcache
    · exact ⟨_, rfl⟩
  simp [promoteOne, hurl, hloc, hb, uploadPhotoBlob, hput]

theorem promoteOne_noop_local (cfg client : Bool) (blobPut : String → Bool)
    (cache : List (String × String)) (logId : String) (ans : Answer) (url : String)
    (hurl : ans.photoUrl = some url) (hloc : isLocalRef url = true)
    (hfail : cacheGet cache (stripLocal url) = none ∨
      (cfg && client && blobPut (photoPath logId ans.pointId)) = false) :
    (promoteOne cfg client blobPut cache logId ans).1 = ans := by
  rcases hfail with hc | hb
  · simp [promoteOne, hurl, hloc, hc]
  · cases hcg : cacheGet cache (stripLocal url) with
    | none => simp [promoteOne, hurl, hloc, hcg]
    | some b64 =>
      have hup := uploadPhotoBlob_fst_none cfg client blobPut
        (photoPath logId ans.pointId) b64 hb
      simp [promoteOne, hurl, hloc, hcg, hup]

theorem promoteOne_noop_notlocal (cfg client : Bool) (blobPut : String → Bool)
    (cache : List (String × String)) (logId : String) (ans : Answer)
    (hnl : ∀ url, ans.photoUrl = some url → isLocalRef url = false) :
    promoteOne cfg client blobPut cache logId ans = (ans, none, []) := by
  cases hu : ans.photoUrl with
  | none => simp [promoteOne, hu]
  | some url => simp [promoteOne, hu, hnl url hu]

theorem promoteLog_answers_get (cfg client : Bool) (blobPut : String → Bool)
    (cache : List (String × String)) (log : InspectionLog) (i : Nat)
    (hi : i < log.answers.length)
    (hi' : i < (promoteLog cfg client blobPut cache log).1.answers.length) :
    (promoteLog cfg client blobPut cache log).1.answers.get ⟨i, hi'⟩ =
      (promoteOne cfg client blobPut cache log.id (log.answers.get ⟨i, hi⟩)).1 := by
  simp [promoteLog, List.get_eq_getElem, List.getElem_map]

/-- C4: the photo promotion pass treats every answer independently against
the entry cache: a local reference whose payload is cached and whose upload
succeeds is rewritten to the public URL and its cache entry is deleted; a
cache miss or a failed upload leaves the answer exactly as it was (never
nulled); a non-local or absent reference is untouched; the log's identity
fields are preserved and the answer list keeps its length, built as a new
value from the input. -/
theorem c4_photo_promotion_per_answer (cfg client : Bool) (blobPut : String → Bool)
    (cache : List (String × String)) (log : InspectionLog) :
    ((promoteLog cfg client blobPut cache log).1.id = log.id ∧
      (promoteLog cfg client blobPut cache log).1.siteName = log.siteName ∧
      (promoteLog cfg client blobPut cache log).1.pdfUrl = log.pdfUrl ∧
      (promoteLog cfg client blobPut cache log).1.synced = log.synced) ∧
    ((promoteLog cfg client blobPut cache log).1.answers.length = log.answers.length) ∧
    (∀ i (hi : i < log.answers.length)
        (hi' : i < (promoteLog cfg client blobPut cache log).1.answers.length),
      (∀ url, (log.answers.get ⟨i, hi⟩).photoUrl = some url →
        isLocalRef url = true →
        cacheGet cache (stripLocal url) ≠ none →
        cfg = true → client = true →
        blobPut (photoPath log.id (log.answers.get ⟨i, hi⟩).pointId) = true →
        ((promoteLog cfg client blobPut cache log).1.answers.get ⟨i, hi'⟩ =
            { (log.answers.get ⟨i, hi⟩) with
                photoUrl :=
                  some (publicUrlOf (photoPath log.id (log.answers.get ⟨i, hi⟩).pointId)) } ∧
          cacheGet (promoteLog cfg client blobPut cache log).2.1 (stripLocal url) = none)) ∧
      (∀ url, (log.answers.get ⟨i, hi⟩).photoUrl = some url →
        isLocalRef url = true →
        (cacheGet cache (stripLocal url) = none ∨
          (cfg && client && blobPut (photoPath log.id (log.answers.get ⟨i, hi⟩).pointId)) =
            false) →
        (promoteLog cfg client blobPut cache log).1.answers.get ⟨i, hi'⟩ =
          log.answers.get ⟨i, hi⟩) ∧
      ((∀ url, (log.answers.get ⟨i, hi⟩).photoUrl = some url →
          isLocalRef url = false) →
        (promoteLog cfg client blobPut cache log).1.answers.get ⟨i, hi'⟩ =
          log.answers.get ⟨i, hi⟩)) := by
  refine ⟨⟨rfl, rfl, rfl, rfl⟩, by simp [promoteLog], ?_⟩
  intro i hi hi'
  refine ⟨?_, ?_, ?_⟩
  · intro url hurl hloc hcache hcfg hcl hput
    have hone := promoteOne_success cfg client blobPut cache log.id
      (log.answers.get ⟨i, hi⟩) url hurl hloc hcache hcfg hcl hput
    constructor
    · rw [promoteLog_answers_get cfg client blobPut cache log i hi hi', hone]
    · have hdel : stripLocal url ∈
          (log.answers.map (promoteOne cfg client blobPut cache log.id)).filterMap
            (fun r => r.2.1) := by
        apply List.mem_filterMap.mpr
        exact ⟨promoteOne cfg client blobPut cache log.id (log.answers.get ⟨i, hi⟩),
          List.mem_map_of_mem _ (log.answers.get_mem i hi),
          by rw [hone]⟩
      exact cacheGet_filter_of_mem cache _ (stripLocal url) hdel
  · intro url hurl hloc hfail
    rw [promoteLog_answers_get cfg client blobPut cache log i hi hi']
    exact promoteOne_noop_local cfg client blobPut cache log.id
      (log.answers.get ⟨i, hi⟩) url hurl hloc hfail
  · intro hnl
    rw [promoteLog_answers_get cfg client blobPut cache log i hi hi',
      promoteOne_noop_notlocal cfg client blobPut cache log.id
        (log.answers.get ⟨i, hi⟩) hnl]

/-- Witness for C4: with one cached local photo, one missing local photo and
one photoless answer, the first is rewritten and evicted, the second is left
as the same local reference. -/
theorem c4_witness :
    (promoteLog true true (fun _ => true) cache0 log0).1.answers.get ⟨0, by decide⟩ =
      { ansLocal with photoUrl := some (publicUrlOf (photoPath "log-1" "p1")) } ∧
    cacheGet (promoteLog true true (fun _ => true) cache0 log0).2.1
      (stripLocal "local::abc") = none ∧
    (promoteLog true true (fun _ => true) cache0 log0).1.answers.get ⟨1, by decide⟩ =
      ansMiss := by
  have h := c4_photo_promotion_per_answer true true (fun _ => true) cache0 log0
  have hsucc := (h.2.2 0 (by decide) (by decide)).1 "local::abc" rfl (by decide)
    (by decide) rfl rfl rfl
  have hmiss := (h.2.2 1 (by decide) (by decide)).2.1 "local::zzz" rfl (by decide)
    (Or.inl (by decide))
  exact ⟨hsucc.1, hsucc.2, hmiss⟩

/-- C9: every log the performInitialLoad merge takes from the remote side
(exactly the synced records of the merged collection) is stored with the
photo reference removed from all of its answers, and carries as pdfUrl only
the log-level pdf_url column with the payload's own pdfUrl as fallback. -/
theorem c9_cloud_logs_stored_stripped (cloudSites : Option (List Site))
    (rows : List CloudLogRow) (ss : StoredValue Site) (li : StoredValue InspectionLog)
    (l : InspectionLog)
    (hmem : l ∈ collOf
      (performInitialLoad true true true cloudSites (some rows) ss li).inspections)
    (hsync : l.synced = true) :
    (∀ a ∈ l.answers, a.photoUrl = none) ∧
    (∃ row ∈ rows, l = formatCloudLog row ∧
      l.pdfUrl = row.pdf_url.orElse (fun _ => row.data.pdfUrl)) := by
  have hmem' : l ∈ perfMergeLogs rows (getInspections li) := by
    simpa [performInitialLoad, collOf] using hmem
  rcases mem_perfMergeLogs rows (getInspections li) l hmem' with h | h
  · rcases List.mem_map.mp h with ⟨row, hrow, hfmt⟩
    refine ⟨?_, ⟨row, hrow, hfmt.symm, ?_⟩⟩
    · intro a ha
      rw [← hfmt] at ha
      have ha' : a ∈ row.data.answers.map (fun x => { x with photoUrl := none }) := by
        simpa [formatCloudLog, stripHeavyData] using ha
      rcases List.mem_map.mp ha' with ⟨a0, _, hfa⟩
      rw [← hfa]
    · rw [← hfmt]
      rfl
  · exfalso
    have hfl := (List.mem_filter.mp h).2
    rw [hsync] at hfl
    exact absurd hfl (by decide)

/-- Witness for C9 at one concrete remote row merged into an empty local
store. -/
theorem c9_witness :
    (∀ a ∈ (formatCloudLog rowFresh).answers, a.photoUrl = none) ∧
    (∃ row ∈ [rowFresh], formatCloudLog rowFresh = formatCloudLog row ∧
      (formatCloudLog rowFresh).pdfUrl =
        row.pdf_url.orElse (fun _ => row.data.pdfUrl)) :=
  c9_cloud_logs_stored_stripped none [rowFresh] .absent .absent
    (formatCloudLog rowFresh) (by decide) rfl

theorem mergeStep_snd_true (acc : List Site × Bool) (r : Site) (h : acc.2 = true) :
    (mergeStep acc r).2 = true := by
  simp only [mergeStep]
  split
  · exact h
  · rfl

theorem mergeRows_flag_monotone (rows : List Site) (acc : List Site × Bool)
    (h : acc.2 = true) : (rows.foldl mergeStep acc).2 = true := by
  induction rows generalizing acc with
  | nil => exact h
  | cons r rest ih =>
    rw [List.foldl_cons]
    exact ih _ (mergeStep_snd_true acc r h)

/-- Some remote row differing from its local slot forces the change flag. -/
theorem mergeRows_flag_of_ne (rows : List Site) (acc : List Site × Bool) (r : Site)
    (hnd : (rows.map Site.id).Nodup) (hmem : r ∈ rows)
    (hne : lookupKey Site.id acc.1 r.id ≠ some r) :
    (rows.foldl mergeStep acc).2 = true := by
  induction rows generalizing acc with
  | nil => cases hmem
  | cons r0 rest ih =>
    rw [List.map_cons, List.nodup_cons] at hnd
    rw [List.foldl_cons]
    rcases List.mem_cons.mp hmem with rfl | hmem'
    · have hstep : (mergeStep acc r).2 = true := by
        simp only [mergeStep]
        rw [if_neg hne]
      exact mergeRows_flag_monotone rest _ hstep
    · by_cases hc : lookupKey Site.id acc.1 r0.id = some r0
      · have hstep : mergeStep acc r0 = acc := by
          simp only [mergeStep]
          rw [if_pos hc]
        rw [hstep]
        exact ih acc hnd.2 hmem' hne
      · have hstep : (mergeStep acc r0).2 = true := by
          simp only [mergeStep]
          rw [if_neg hc]
        exact mergeRows_flag_monotone rest _ hstep

theorem lookupKey_mkMap_of_nodup (key : α → String) (xs : List α) (l : α)
    (hnd : (xs.map key).Nodup) (hmem : l ∈ xs) :
    lookupKey key (mkMap key xs) (key l) = some l := by
  rw [show mkMap key xs = xs.foldl (fun m v => upsertFirst key v m) [] from rfl,
    lookupKey_mkFold]
  exact find?_reverse_of_nodup key xs l hnd hmem

/-- Counterexample to C1 as stated: in performInitialLoad, a remote site row
value-unequal to the local record does not replace it when the local record
is unsynced — the merged slot still holds the local payload with
synced = false. -/
theorem c1_counterexample :
    lookupKey Site.id
      (collOf (performInitialLoad true true true (some [siteRemoteB]) none
        (.arr [siteLocalA]) .absent).sites) "s1" = some siteLocalA ∧
    siteLocalA ≠ { siteRemoteB with synced := true } ∧
    siteLocalA.synced = false := by
  refine ⟨by decide, by decide, rfl⟩

/-- C1 amended: in downloadLatestSites every remote row absent locally or
value-unequal to the local record replaces the slot with synced = true,
regardless of the local synced flag; in performInitialLoad (sites and
inspections alike) the remote row lands in the merged slot, marked synced,
only when no locally-unsynced record shares its id — a pending local record
keeps the slot. -/
theorem c1_amended_remote_wins :
    (∀ (rows : List Site) (s : StoredValue Site) (r : Site),
      (rows.map Site.id).Nodup → r ∈ rows →
      lookupKey Site.id (mkMap Site.id (getSites s).2) r.id ≠ some r →
      lookupKey Site.id
        (collOf (downloadLatestSites true true true (some rows) s).store) r.id =
        some { r with synced := true }) ∧
    (∀ (cloud : List Site) (cloudLogs : Option (List CloudLogRow))
        (ss : StoredValue Site) (li : StoredValue InspectionLog) (r : Site),
      (cloud.map Site.id).Nodup → r ∈ cloud →
      (∀ l ∈ (getSites ss).2, l.id = r.id → l.synced = true) →
      lookupKey Site.id
        (collOf (performInitialLoad true true true (some cloud) cloudLogs ss li).sites)
        r.id = some { r with synced := true }) ∧
    (∀ (cloudSites : Option (List Site)) (rows : List CloudLogRow)
        (ss : StoredValue Site) (li : StoredValue InspectionLog) (row : CloudLogRow),
      ((rows.map formatCloudLog).map InspectionLog.id).Nodup → row ∈ rows →
      (∀ l ∈ getInspections li, l.id = row.data.id → l.synced = true) →
      lookupKey InspectionLog.id
        (collOf (performInitialLoad true true true cloudSites (some rows) ss li).inspections)
        row.data.id = some (formatCloudLog row)) := by
  refine ⟨?_, ?_, ?_⟩
  · intro rows s r hnd hmem hne
    have hflag := mergeRows_flag_of_ne rows (mkMap Site.id (getSites s).2, false) r
      hnd hmem hne
    have hval := lookupKey_mergeRows rows (mkMap Site.id (getSites s).2, false) r
      hnd hmem
    rw [if_neg hne] at hval
    simp only [downloadLatestSites, mergeRows, hflag, collOf]
    simpa using hval
  · intro cloud cloudLogs ss li r hnd hmem hnp
    have h := lookupKey_perfMergeSites_cloud cloud (getSites ss).2 r hnd hmem hnp
    simpa [performInitialLoad, collOf] using h
  · intro cloudSites rows ss li row hnd hmem hnp
    have h := lookupKey_perfMergeLogs_cloud rows (getInspections li) row hnd hmem hnp
    simpa [performInitialLoad, collOf] using h

/-- Witness for C1 amended: a divergent remote row replaces an already-synced
local copy in downloadLatestSites and in the performInitialLoad merge. -/
theorem c1_witness :
    lookupKey Site.id
      (collOf (downloadLatestSites true true true (some [siteRemoteB])
        (.arr [{ siteLocalA with synced := true }])).store) "s1" =
      some { siteRemoteB with synced := true } ∧
    lookupKey Site.id
      (collOf (performInitialLoad true true true (some [siteRemoteB]) none
        (.arr [{ siteLocalA with synced := true }]) .absent).sites) "s1" =
      some { siteRemoteB with synced := true } :=
  ⟨(c1_amended_remote_wins.1 [siteRemoteB] (.arr [{ siteLocalA with synced := true }])
      siteRemoteB (by decide) (by decide) (by decide)),
    (c1_amended_remote_wins.2.1 [siteRemoteB] none
      (.arr [{ siteLocalA with synced := true }]) .absent siteRemoteB (by decide)
      (by decide) (by decide))⟩

/-- Counterexample to C2 as stated: performInitialLoad deletes a local-only
record whose synced flag is true — after a cycle with an empty remote sites
snapshot the record is gone from the stored collection. -/
theorem c2_counterexample :
    (performInitialLoad true true true (some []) none
      (.arr [siteSyncedOnly]) .absent).sites = .arr [] ∧
    siteSyncedOnly.synced = true := by
  exact ⟨by decide, rfl⟩

/-- C2 amended: downloadLatestSites leaves every local record untouched when
no fetched row shares its id, whatever its synced flag; performInitialLoad
preserves local-only records only when they are unsynced (pending) — for
sites and inspections alike — while local-only records already marked synced
are dropped from the merged collection. -/
theorem c2_amended_local_only_records :
    (∀ (rows : List Site) (s : StoredValue Site) (l : Site),
      ((getSites s).2.map Site.id).Nodup → l ∈ (getSites s).2 →
      (∀ r ∈ rows, r.id ≠ l.id) →
      lookupKey Site.id
        (collOf (downloadLatestSites true true true (some rows) s).store) l.id =
        some l) ∧
    (∀ (cloud : List Site) (cloudLogs : Option (List CloudLogRow))
        (ss : StoredValue Site) (li : StoredValue InspectionLog) (l : Site),
      ((getSites ss).2.map Site.id).Nodup → l ∈ (getSites ss).2 →
      l.synced = false → (∀ r ∈ cloud, r.id ≠ l.id) →
      lookupKey Site.id
        (collOf (performInitialLoad true true true (some cloud) cloudLogs ss li).sites)
        l.id = some l) ∧
    (∀ (cloudSites : Option (List Site)) (rows : List CloudLogRow)
        (ss : StoredValue Site) (li : StoredValue InspectionLog) (l : InspectionLog),
      ((getInspections li).map InspectionLog.id).Nodup → l ∈ getInspections li →
      l.synced = false → (∀ row ∈ rows, row.data.id ≠ l.id) →
      lookupKey InspectionLog.id
        (collOf (performInitialLoad true true true cloudSites (some rows) ss li).inspections)
        l.id = some l) := by
  refine ⟨?_, ?_, ?_⟩
  · intro rows s l hnd hmem hnr
    have hbase : lookupKey Site.id (mkMap Site.id (getSites s).2) l.id = some l :=
      lookupKey_mkMap_of_nodup Site.id (getSites s).2 l hnd hmem
    have huntouched := lookupKey_foldl_mergeStep rows
      (mkMap Site.id (getSites s).2, false) l.id hnr
    by_cases hflag : (rows.foldl mergeStep (mkMap Site.id (getSites s).2, false)).2 = true
    · simp only [downloadLatestSites, mergeRows, hflag, collOf]
      simpa using huntouched.trans hbase
    · have hf : (rows.foldl mergeStep (mkMap Site.id (getSites s).2, false)).2 = false := by
        cases hval2 : (rows.foldl mergeStep (mkMap Site.id (getSites s).2, false)).2
        · rfl
        · exact absurd hval2 hflag
      simp [downloadLatestSites, mergeRows, hf, getSites_coll]
      exact lookupKey_eq_of_nodup Site.id (getSites s).2 l hnd hmem
  · intro cloud cloudLogs ss li l hnd hmem hsync hnr
    have h := lookupKey_perfMergeSites_pending cloud (getSites ss).2 l hnd hmem hsync
    simpa [performInitialLoad, collOf] using h
  · intro cloudSites rows ss li l hnd hmem hsync hnr
    have h := lookupKey_perfMergeLogs_pending rows (getInspections li) l hnd hmem hsync
    simpa [performInitialLoad, collOf] using h

/-- Witness for C2 amended: the spec scenario — a local unsynced site absent
from the remote rows survives the cycle in both merge paths. -/
theorem c2_witness :
    lookupKey Site.id
      (collOf (downloadLatestSites true true true (some [siteRemoteB])
        (.arr [siteFresh])).store) "s9" = some siteFresh ∧
    lookupKey Site.id
      (collOf (performInitialLoad true true true (some [siteRemoteB]) none
        (.arr [siteFresh]) .absent).sites) "s9" = some siteFresh :=
  ⟨(c2_amended_local_only_records.1 [siteRemoteB] (.arr [siteFresh]) siteFresh
      (by decide) (by decide) (by decide)),
    (c2_amended_local_only_records.2.1 [siteRemoteB] none (.arr [siteFresh]) .absent
      siteFresh (by decide) (by decide) rfl (by decide))⟩

/-- Counterexample to C5 as stated: two runs of downloadLatestSites with the
same remote row (carrying synced = false, as uploads store it) and no
intervening local change — the second run still dispatches sites-updated,
because the first merge stored the row with synced = true and the
value-equality check therefore fails again. -/
theorem c5_counterexample :
    (downloadLatestSites true true true (some [siteFresh])
      (downloadLatestSites true true true (some [siteFresh]) (.arr [])).store).events =
      [.sitesUpdated] := by
  decide

/-- C5 amended: downloadLatestSites raises no notification and keeps the
stored value exactly when every fetched row is value-equal (synced flag
included) to its local slot; since the merge stores rows with synced = true
while uploaded rows carry synced = false, a repeated sync over such rows
notifies again; performInitialLoad rewrites and dispatches both update
events unconditionally on every run. -/
theorem c5_amended_resync_short_circuit :
    (∀ (rows : List Site) (s : StoredValue Site),
      (∀ r ∈ rows, lookupKey Site.id (mkMap Site.id (getSites s).2) r.id = some r) →
      (downloadLatestSites true true true (some rows) s).events = [] ∧
      (downloadLatestSites true true true (some rows) s).store = (getSites s).1) ∧
    (∀ (cloudSites : Option (List Site)) (cloudLogs : Option (List CloudLogRow))
        (ss : StoredValue Site) (li : StoredValue InspectionLog),
      (performInitialLoad true true true cloudSites cloudLogs ss li).events =
        [.sitesUpdated, .inspectionsUpdated]) := by
  constructor
  · intro rows s hall
    have h0 := mergeRows_no_change rows (mkMap Site.id (getSites s).2) hall
    constructor <;> simp [downloadLatestSites, mergeRows, h0]
  · intro cloudSites cloudLogs ss li
    rfl

/-- Witness for C5 amended: a remote row already value-equal to the local
slot produces no write and no notification. -/
theorem c5_witness :
    (downloadLatestSites true true true (some [{ siteFresh with synced := true }])
      (.arr [{ siteFresh with synced := true }])).events = [] ∧
    (downloadLatestSites true true true (some [{ siteFresh with synced := true }])
      (.arr [{ siteFresh with synced := true }])).store =
      (getSites (.arr [{ siteFresh with synced := true }])).1 :=
  c5_amended_resync_short_circuit.1 [{ siteFresh with synced := true }]
    (.arr [{ siteFresh with synced := true }]) (by decide)

/-- Counterexample to C8 as stated: uploadInspectionWithPDF performs remote
calls while the connectivity condition is false — the source gates this path
on configuration and client presence only. -/
theorem c8_counterexample :
    (uploadInspectionWithPDF true true false (fun _ => true) true true (fun _ => true)
      [] .absent log0).remote ≠ [] := by
  decide

/-- C8 amended: downloadLatestSites, performInitialLoad, saveSite,
deleteSite, syncPendingData check both isOnline and isConfigured (plus
client presence) and make no remote call when offline, and saveInspection
makes none at all; but uploadInspectionWithPDF ignores isOnline entirely
(its outcome is the same offline as online), and uploadInspectionToSupabase
ignores both isOnline and isConfigured. -/
theorem c8_amended_connectivity_gates :
    (∀ (cfg client : Bool) (fetch : Option (List Site)) (s : StoredValue Site),
      (downloadLatestSites cfg client false fetch s).remote = []) ∧
    (∀ (cfg client : Bool) (cs : Option (List Site)) (cl : Option (List CloudLogRow))
        (ss : StoredValue Site) (li : StoredValue InspectionLog),
      (performInitialLoad cfg client false cs cl ss li).remote = []) ∧
    (∀ (cfg client upsertOk : Bool) (s : StoredValue Site) (site : Site),
      (saveSite cfg client false upsertOk s site).remote = []) ∧
    (∀ (cfg client : Bool) (s : StoredValue Site) (sid : String),
      (deleteSite cfg client false s sid).remote = []) ∧
    (∀ (cfg client : Bool) (fetch : Option (List Site))
        (uLog uSite : String → Bool) (ss : StoredValue Site)
        (li : StoredValue InspectionLog),
      (syncPendingData cfg client false fetch uLog uSite ss li).remote = []) ∧
    (∀ (fits : List InspectionLog → Bool) (li : StoredValue InspectionLog)
        (log : InspectionLog), (saveInspection fits li log).remote = []) ∧
    (∀ (cfg client : Bool) (blobPut : String → Bool) (pdfPutOk dbUpsertOk : Bool)
        (fits : List InspectionLog → Bool) (cache : List (String × String))
        (s : StoredValue InspectionLog) (log : InspectionLog),
      uploadInspectionWithPDF cfg client false blobPut pdfPutOk dbUpsertOk fits
          cache s log =
        uploadInspectionWithPDF cfg client true blobPut pdfPutOk dbUpsertOk fits
          cache s log) ∧
    (∀ (cfg client online upsertOk : Bool) (s : StoredValue InspectionLog)
        (log : InspectionLog),
      uploadInspectionToSupabase cfg client online upsertOk s log =
        uploadInspectionToSupabase true client true upsertOk s log) := by
  refine ⟨?_, ?_, ?_, ?_, ?_, ?_, ?_, ?_⟩
  · intro cfg client fetch s
    simp [downloadLatestSites]
  · intro cfg client cs cl ss li
    simp [performInitialLoad]
  · intro cfg client upsertOk s site
    simp [saveSite]
  · intro cfg client s sid
    simp [deleteSite]
  · intro cfg client fetch uLog uSite ss li
    simp [syncPendingData]
  · intro fits li log
    simp only [saveInspection]
    split
    · rfl
    · split
      · rfl
      · rfl
  · intro cfg client blobPut pdfPutOk dbUpsertOk fits cache s log
    rfl
  · intro cfg client online upsertOk s log
    rfl
